import Mathlib

/-!
Verification of the go-wallet key-custody and signing engine.

The Go sources are shallowly embedded:
bytes are `Nat` values below 256, byte slices are `List Nat`, big integers
are `Nat`/`Int`, and fallible operations return `Option`/`Except`.
Library primitives from go-ethereum (SHA-256, secp256k1 signing and
verification, public-key serialization, address derivation, transaction
hashing) are fields of a `Backend` structure; everything the repository
itself computes (hex encoding and decoding, key serialization bounds
checks, file-backed key storage, control flow of every operation) is
embedded concretely.
-/

namespace GoWallet

/-! ### Go standard library: encoding/hex

`hex.EncodeToString` emits two lowercase hex digits per byte.
`hex.DecodeString` fails on an odd-length input or any non-hex digit;
it accepts both lowercase and uppercase digits. -/

/-- The sixteen lowercase hex digits 0..9, a..f in order. -/
def hexTable : List Char :=
  (List.range 16).map fun d =>
    if d < 10 then Char.ofNat ('0'.toNat + d) else Char.ofNat ('a'.toNat + d - 10)

def encodeByte (b : Nat) : List Char :=
  [hexTable.getD (b / 16) '0', hexTable.getD (b % 16) '0']

def EncodeToString (bs : List Nat) : String :=
  String.mk (bs.map encodeByte).flatten

def fromHexChar (c : Char) : Option Nat :=
  if '0' ≤ c ∧ c ≤ '9' then some (c.toNat - '0'.toNat)
  else if 'a' ≤ c ∧ c ≤ 'f' then some (c.toNat - 'a'.toNat + 10)
  else if 'A' ≤ c ∧ c ≤ 'F' then some (c.toNat - 'A'.toNat + 10)
  else none

def decodePairs : List Char → Option (List Nat)
  | [] => some []
  | [_] => none
  | c1 :: c2 :: rest =>
    match fromHexChar c1, fromHexChar c2, decodePairs rest with
    | some d1, some d2, some tl => some ((d1 * 16 + d2) :: tl)
    | _, _, _ => none

def DecodeString (s : String) : Option (List Nat) := decodePairs s.data

/-! ### Big-endian byte serialization of natural numbers

`math.PaddedBigBytes(d, 32)` in `crypto.FromECDSA` writes the scalar as
exactly 32 big-endian bytes; `new(big.Int).SetBytes` in `crypto.ToECDSA`
reads big-endian bytes back. -/

def natToBytesBE : Nat → Nat → List Nat
  | 0, _ => []
  | n + 1, d => natToBytesBE n (d / 256) ++ [d % 256]

def bytesToNat (bs : List Nat) : Nat := bs.foldl (fun acc b => acc * 256 + b) 0

/-- Order of the secp256k1 base point, as in go-ethereum's crypto package. -/
def secp256k1N : Nat :=
  0xfffffffffffffffffffffffffffffffebaaedce6af48a03bbfd25e8cd0364141

/-! ### utils/crypto.go: private-key serialization

A private key is its scalar `d` with `0 < d < secp256k1N`; the public
point and address are derived through the backend.  `crypto.FromECDSA`
is the 32-byte big-endian padding of `d`; `crypto.ToECDSA` (strict mode)
demands exactly 32 bytes and a scalar in the open interval `(0, N)`. -/

def FromECDSA (d : Nat) : List Nat := natToBytesBE 32 d

def PrivateKeyToHex (d : Nat) : String := EncodeToString (FromECDSA d)

def ToECDSA (bs : List Nat) : Option Nat :=
  if bs.length ≠ 32 then none
  else if secp256k1N ≤ bytesToNat bs then none
  else if bytesToNat bs = 0 then none
  else some (bytesToNat bs)

def HexToPrivateKey (s : String) : Option Nat :=
  match DecodeString s with
  | none => none
  | some bs => ToECDSA bs

/-! ### Round-trip lemmas for the encodings -/

lemma fromHexChar_hexTable (d : Nat) (h : d < 16) :
    fromHexChar (hexTable.getD d '0') = some d := by
  interval_cases d <;> decide

lemma decodePairs_encode (bs : List Nat) (h : ∀ b ∈ bs, b < 256) :
    decodePairs (bs.map encodeByte).flatten = some bs := by
  induction bs with
  | nil => rfl
  | cons b tl ih =>
    have hb : b < 256 := h b (by simp)
    have hhi : b / 16 < 16 := by omega
    have hlo : b % 16 < 16 := by omega
    have htl : decodePairs (tl.map encodeByte).flatten = some tl :=
      ih (fun x hx => h x (by simp [hx]))
    simp only [List.map_cons, List.flatten_cons, encodeByte, List.cons_append,
      List.append_eq, List.nil_append, decodePairs]
    rw [fromHexChar_hexTable _ hhi, fromHexChar_hexTable _ hlo, htl]
    have : b / 16 * 16 + b % 16 = b := by omega
    simp [this]

lemma DecodeString_EncodeToString (bs : List Nat) (h : ∀ b ∈ bs, b < 256) :
    DecodeString (EncodeToString bs) = some bs :=
  decodePairs_encode bs h

lemma bytesToNat_append_singleton (xs : List Nat) (b : Nat) :
    bytesToNat (xs ++ [b]) = bytesToNat xs * 256 + b := by
  simp [bytesToNat, List.foldl_append]

lemma length_natToBytesBE (n d : Nat) : (natToBytesBE n d).length = n := by
  induction n generalizing d with
  | zero => rfl
  | succ n ih => simp [natToBytesBE, ih]

lemma mem_natToBytesBE_lt (n d : Nat) : ∀ b ∈ natToBytesBE n d, b < 256 := by
  induction n generalizing d with
  | zero => simp [natToBytesBE]
  | succ n ih =>
    intro b hb
    simp only [natToBytesBE, List.mem_append, List.mem_singleton] at hb
    rcases hb with hb | hb
    · exact ih (d / 256) b hb
    · omega

lemma bytesToNat_natToBytesBE (n d : Nat) (h : d < 256 ^ n) :
    bytesToNat (natToBytesBE n d) = d := by
  induction n generalizing d with
  | zero =>
    have : d = 0 := by simpa using h
    subst this; rfl
  | succ n ih =>
    have hdiv : d / 256 < 256 ^ n := by
      rw [Nat.div_lt_iff_lt_mul (by norm_num)]
      calc d < 256 ^ (n + 1) := h
        _ = 256 ^ n * 256 := by ring
    simp only [natToBytesBE, bytesToNat_append_singleton, ih (d / 256) hdiv]
    omega

lemma secp256k1N_lt_pow : secp256k1N < 256 ^ 32 := by decide

lemma decode_PrivateKeyToHex (d : Nat) :
    DecodeString (PrivateKeyToHex d) = some (natToBytesBE 32 d) :=
  DecodeString_EncodeToString _ (mem_natToBytesBE_lt 32 d)

lemma ToECDSA_FromECDSA (d : Nat) (h0 : 0 < d) (hN : d < secp256k1N) :
    ToECDSA (natToBytesBE 32 d) = some d := by
  have hlt : d < 256 ^ 32 := lt_trans hN secp256k1N_lt_pow
  have hval : bytesToNat (natToBytesBE 32 d) = d := bytesToNat_natToBytesBE 32 d hlt
  simp only [ToECDSA, length_natToBytesBE, hval]
  have h1 : ¬ secp256k1N ≤ d := Nat.not_le.mpr hN
  have h2 : ¬ d = 0 := by omega
  simp [h1, h2]

/-- Core round trip: a valid scalar survives 32-byte padding, hex
encoding, hex decoding and the strict `ToECDSA` re-validation. -/
lemma hexPrivRoundtrip (d : Nat) (h0 : 0 < d) (hN : d < secp256k1N) :
    HexToPrivateKey (PrivateKeyToHex d) = some d := by
  simp only [HexToPrivateKey, decode_PrivateKeyToHex d, ToECDSA_FromECDSA d h0 hN]

/-- C5: for every valid private key scalar, decoding the hex encoding of
the key returns exactly the same scalar: round-trip exactness of the
persisted-key encoding (utils PrivateKeyToHex / HexToPrivateKey). -/
theorem C5_privkey_hex_roundtrip (d : Nat) (h0 : 0 < d) (hN : d < secp256k1N) :
    HexToPrivateKey (PrivateKeyToHex d) = some d :=
  hexPrivRoundtrip d h0 hN

/-- C5 witness: the round trip evaluated at the concrete scalar 1. -/
theorem C5_privkey_hex_roundtrip_witness :
    0 < 1 ∧ 1 < secp256k1N ∧ HexToPrivateKey (PrivateKeyToHex 1) = some 1 :=
  ⟨by decide, by decide, C5_privkey_hex_roundtrip 1 (by decide) (by decide)⟩

/-! ### Transaction data

`types.NewTransaction(nonce, to, value, gasLimit, gasPrice, nil)` builds
an unsigned legacy transaction with empty payload; `types.SignTx` with an
EIP-155 signer attaches the signature values (R, S, V). -/

structure Tx where
  nonce : Nat
  gasPrice : Nat
  gasLimit : Nat
  toAddr : List Nat
  value : Int
deriving DecidableEq, Repr

structure SignedTx where
  tx : Tx
  sigR : Nat
  sigS : Nat
  sigV : Nat
deriving DecidableEq, Repr

/-! ### The go-ethereum cryptographic backend

Library primitives the repository calls but does not implement.  `ecSign`
models `crypto.Sign(digest, key)`: Go functions may consult ambient
process state, so it also receives an explicit entropy argument; the
documented library behaviour (deterministic RFC-6979-style nonces, a
65-byte `[R || S || V]` result with `V` in 0..1, and `(r, s)` validating
against the matching public key) enters the theorems as hypotheses.
Public keys are abstract identifiers (`Nat`). -/

structure Backend where
  sha256 : String → List Nat
  ecSign : List Nat → Nat → Nat → Option (List Nat)
  ecVerify : List Nat → List Nat → List Nat → Bool
  pubOf : Nat → Nat
  fromECDSAPub : Nat → List Nat
  pubkeyToAddress : Nat → String
  txSigHash : Nat → Tx → List Nat
  txHash : SignedTx → String

/-! ### utils/crypto.go: message signing and verification -/

/-- Outcome of `VerifyMessage`: a boolean with nil error, a returned hex
decoding error, or a Go runtime panic (slice bounds out of range). -/
inductive VerifyResult where
  | ok (b : Bool)
  | decodeErr
  | panicked
deriving DecidableEq, Repr

namespace Utils

/-- utils.SignMessage: sha256 the message, `crypto.Sign` the digest, hex
encode the 65-byte signature. -/
def SignMessage (B : Backend) (privateKey : Nat) (message : String)
    (entropy : Nat) : Option String :=
  match B.ecSign (B.sha256 message) privateKey entropy with
  | none => none
  | some signature => some (EncodeToString signature)

/-- utils.VerifyMessage: sha256 the message, hex decode the signature
(returning the error on failure), then call `crypto.VerifySignature` on
`signature[:len(signature)-1]` — a slice that panics when the decoded
signature is empty, since its upper bound is -1. -/
def VerifyMessage (B : Backend) (publicKey : Nat)
    (message signatureHex : String) : VerifyResult :=
  match DecodeString signatureHex with
  | none => VerifyResult.decodeErr
  | some signature =>
    if signature.length = 0 then VerifyResult.panicked
    else VerifyResult.ok (B.ecVerify (B.fromECDSAPub publicKey)
      (B.sha256 message) (signature.take (signature.length - 1)))

end Utils

/-! ### services/wallet.go: the file-backed key store

The key file content is modelled as `Option String` (`none` when
`private_key.txt` is absent). -/

inductive LoadError where
  | fileNotExist
  | hexDecodeError
  | invalidScalar
deriving DecidableEq, Repr

namespace Services

/-- services.loadKey: missing file, hex decoding failure and
`crypto.ToECDSA` rejection are the three distinct error paths. -/
def loadKey (st : Option String) : Except LoadError Nat :=
  match st with
  | none => Except.error LoadError.fileNotExist
  | some txt =>
    match DecodeString txt with
    | none => Except.error LoadError.hexDecodeError
    | some bs =>
      match ToECDSA bs with
      | none => Except.error LoadError.invalidScalar
      | some d => Except.ok d

/-- services.GenerateKeyPair on its success path: the fresh scalar from
`crypto.GenerateKey` is the argument; the function hex encodes it,
derives the address, writes the hex to the key file and returns the pair
`(privateKeyHex, address)` together with the new file content. -/
def GenerateKeyPair (B : Backend) (d : Nat) : (String × String) × Option String :=
  let privateKeyHex := PrivateKeyToHex d
  let address := B.pubkeyToAddress (B.pubOf d)
  ((privateKeyHex, address), some privateKeyHex)

/-- services.GetAddress: load the key and derive its address. -/
def GetAddress (B : Backend) (st : Option String) : Except LoadError String :=
  match loadKey st with
  | Except.error e => Except.error e
  | Except.ok d => Except.ok (B.pubkeyToAddress (B.pubOf d))

end Services

/-! ### common.HexToAddress

`common.HexToAddress` never fails: `FromHex` strips an optional `0x`/`0X`
marker, left-pads an odd-length string with one `0`, and `Hex2Bytes`
keeps the longest valid prefix of byte pairs (the decode error is
discarded).  `BytesToAddress` keeps the last 20 bytes and left-pads with
zeros. -/

def decodePairsLenient : List Char → List Nat
  | c1 :: c2 :: rest =>
    match fromHexChar c1, fromHexChar c2 with
    | some d1, some d2 => (d1 * 16 + d2) :: decodePairsLenient rest
    | _, _ => []
  | _ => []

def has0xMarker (s : String) : Bool :=
  match s.data with
  | '0' :: c :: _ => c = 'x' ∨ c = 'X'
  | _ => false

def FromHex (s : String) : List Nat :=
  let s1 := if has0xMarker s then String.mk (s.data.drop 2) else s
  let s2 := if s1.data.length % 2 = 1 then String.mk ('0' :: s1.data) else s1
  decodePairsLenient s2.data

def BytesToAddress (bs : List Nat) : List Nat :=
  let b := if bs.length > 20 then bs.drop (bs.length - 20) else bs
  List.replicate (20 - b.length) 0 ++ b

def HexToAddress (s : String) : List Nat := BytesToAddress (FromHex s)

/-! ### services/transaction.go: transaction signing and sending -/

inductive TxError where
  | loadErr (e : LoadError)
  | nonceErr
  | gasPriceErr
  | chainIdErr
  | signErr
  | sendErr
deriving DecidableEq, Repr

/-- One invocation's view of the external ethclient collaborator: `none`
models a failed network call. -/
structure EthClient where
  pendingNonceAt : String → Option Nat
  suggestGasPrice : Option Nat
  networkID : Option Nat
  sendTransaction : SignedTx → Option Unit

namespace Services

/-- types.SignTx with `types.NewEIP155Signer(chainId)`: sign the
chain-id-bound transaction hash, then split the 65-byte raw signature
into R = sig[:32], S = sig[32:64] and V = sig[64] + 35 + 2*chainId
(`decodeSignature` rejects any other signature length). -/
def SignTx (B : Backend) (chainId : Nat) (tx : Tx) (key : Nat)
    (entropy : Nat) : Option SignedTx :=
  match B.ecSign (B.txSigHash chainId tx) key entropy with
  | none => none
  | some sig =>
    if sig.length ≠ 65 then none
    else some { tx := tx,
                sigR := bytesToNat (sig.take 32),
                sigS := bytesToNat ((sig.drop 32).take 32),
                sigV := sig.getD 64 0 + 35 + 2 * chainId }

/-- services.CreateAndSendTransaction: load the key, fetch the nonce for
the sender address, fix gasLimit = 21000, fetch the gas price, coerce
the recipient string with `common.HexToAddress`, fetch the chain id,
build and EIP-155-sign the transaction, send it, and return its hash.
The recipient string and the value are never validated. -/
def CreateAndSendTransaction (B : Backend) (st : Option String)
    (client : EthClient) (entropy : Nat) (toAddress : String)
    (value : Int) : Except TxError String :=
  match loadKey st with
  | Except.error e => Except.error (TxError.loadErr e)
  | Except.ok privateKey =>
    let fromAddress := B.pubkeyToAddress (B.pubOf privateKey)
    match client.pendingNonceAt fromAddress with
    | none => Except.error TxError.nonceErr
    | some nonce =>
      let gasLimit := 21000
      match client.suggestGasPrice with
      | none => Except.error TxError.gasPriceErr
      | some gasprice =>
        let toA := HexToAddress toAddress
        match client.networkID with
        | none => Except.error TxError.chainIdErr
        | some chainID =>
          let tx : Tx := { nonce := nonce, gasPrice := gasprice,
                           gasLimit := gasLimit, toAddr := toA, value := value }
          match SignTx B chainID tx privateKey entropy with
          | none => Except.error TxError.signErr
          | some signedTx =>
            match client.sendTransaction signedTx with
            | none => Except.error TxError.sendErr
            | some _ => Except.ok (B.txHash signedTx)

end Services

/-! ### Concrete instances for witnesses -/

/-- A fixed 65-byte raw signature with recovery byte 1. -/
def sig65 : List Nat := List.replicate 64 7 ++ [1]

/-- A concrete backend whose signer always emits `sig65` and whose
verifier accepts exactly its (r, s) part. -/
def BW : Backend where
  sha256 := fun _ => List.replicate 32 0
  ecSign := fun _ _ _ => some sig65
  ecVerify := fun _ _ s => decide (s = sig65.take 64)
  pubOf := fun k => k
  fromECDSAPub := fun p => [p % 256]
  pubkeyToAddress := fun p => EncodeToString [p % 256]
  txSigHash := fun chainId _ => [chainId % 256]
  txHash := fun _ => "txhash"

/-- Key-file content holding the valid scalar 1. -/
def keyFileSt : Option String := some (PrivateKeyToHex 1)

def clientNonceDown : EthClient where
  pendingNonceAt := fun _ => none
  suggestGasPrice := some 1
  networkID := some 1
  sendTransaction := fun _ => some ()

def clientOK : EthClient where
  pendingNonceAt := fun _ => some 0
  suggestGasPrice := some 1
  networkID := some 1
  sendTransaction := fun _ => some ()

/-- A fixed 65-byte raw signature agreeing with `sig65` except in the
final recovery byte. -/
def sig65b : List Nat := List.replicate 64 7 ++ [0]

/-- A concrete unsigned transaction. -/
def tx0 : Tx :=
  { nonce := 0, gasPrice := 1, gasLimit := 21000,
    toAddr := List.replicate 20 0, value := 0 }

/-! ### Claims -/

/-- C1: the claim says malformed signature hex input to VerifyMessage
never raises an unhandled fault, for the empty string included.  The
code violates it: hex-decoding the empty string succeeds with an empty
byte slice, and the slice expression signature[:len(signature)-1] then
panics, its upper bound being -1.  This theorem evaluates the embedded
code at that failing input: the result is a panic, for every backend,
public key and message. -/
theorem C1_verify_empty_sig_panics (B : Backend) (publicKey : Nat) (message : String) :
    Utils.VerifyMessage B publicKey message "" = VerifyResult.panicked := rfl

/-- C8: loadKey fails with the file-absent error exactly when the key
file is absent, fails with the hex-decode error exactly when the stored
text fails hexadecimal decoding, fails with the invalid-scalar error
exactly when the decoded bytes are rejected by ToECDSA, and succeeds
exactly when the file exists and holds a valid hex-encoded scalar. -/
theorem C8_loadKey_error_taxonomy :
    (∀ st : Option String,
      Services.loadKey st = Except.error LoadError.fileNotExist ↔ st = none)
    ∧ ∀ txt : String,
        (Services.loadKey (some txt) = Except.error LoadError.hexDecodeError ↔
            DecodeString txt = none)
        ∧ (Services.loadKey (some txt) = Except.error LoadError.invalidScalar ↔
            ∃ bs, DecodeString txt = some bs ∧ ToECDSA bs = none)
        ∧ ((∃ d, Services.loadKey (some txt) = Except.ok d) ↔
            ∃ bs d, DecodeString txt = some bs ∧ ToECDSA bs = some d) := by
  have hsome : ∀ txt : String,
      (Services.loadKey (some txt) = Except.error LoadError.hexDecodeError ↔
          DecodeString txt = none)
      ∧ (Services.loadKey (some txt) = Except.error LoadError.invalidScalar ↔
          ∃ bs, DecodeString txt = some bs ∧ ToECDSA bs = none)
      ∧ ((∃ d, Services.loadKey (some txt) = Except.ok d) ↔
          ∃ bs d, DecodeString txt = some bs ∧ ToECDSA bs = some d) := by
    intro txt
    cases hdec : DecodeString txt with
    | none => simp [Services.loadKey, hdec]
    | some bs =>
      cases hto : ToECDSA bs with
      | none => simp [Services.loadKey, hdec, hto]
      | some d => simp [Services.loadKey, hdec, hto]
  refine ⟨fun st => ?_, hsome⟩
  cases st with
  | none => simp [Services.loadKey]
  | some txt =>
    cases hdec : DecodeString txt with
    | none => simp [Services.loadKey, hdec]
    | some bs =>
      cases hto : ToECDSA bs with
      | none => simp [Services.loadKey, hdec, hto]
      | some d => simp [Services.loadKey, hdec, hto]

/-- C9: for every private key and message, two calls to SignMessage
with the same key and message produce identical signature strings.  The
entropy arguments model whatever ambient process state the two calls
could observe; the hypothesis is the documented deterministic
(RFC-6979-style) nonce generation of the library signer, and the
theorem shows SignMessage adds no other source of nondeterminism. -/
theorem C9_sign_deterministic (B : Backend)
    (hdet : ∀ h k e1 e2, B.ecSign h k e1 = B.ecSign h k e2)
    (k : Nat) (m : String) (e1 e2 : Nat) :
    Utils.SignMessage B k m e1 = Utils.SignMessage B k m e2 := by
  unfold Utils.SignMessage
  rw [hdet (B.sha256 m) k e1 e2]

/-- C9 witness: two calls with distinct entropy on the concrete backend. -/
theorem C9_sign_deterministic_witness :
    Utils.SignMessage BW 1 "msg" 0 = Utils.SignMessage BW 1 "msg" 99 :=
  C9_sign_deterministic BW (fun _ _ _ _ => rfl) 1 "msg" 0 99

/-- C7: for every public key, message, and pair of well-formed 65-byte
signatures differing only in the final recovery byte, VerifyMessage
returns the same result: verification strips the last byte, so the
outcome never depends on it. -/
theorem C7_verify_ignores_recovery_byte (B : Backend) (publicKey : Nat)
    (message h1 h2 : String) (s1 s2 : List Nat)
    (hd1 : DecodeString h1 = some s1) (hd2 : DecodeString h2 = some s2)
    (hl1 : s1.length = 65) (hl2 : s2.length = 65)
    (hsame : s1.take 64 = s2.take 64) :
    Utils.VerifyMessage B publicKey message h1 =
      Utils.VerifyMessage B publicKey message h2 := by
  unfold Utils.VerifyMessage
  rw [hd1, hd2]
  simp [hl1, hl2, hsame]

/-- C7 witness: two concrete signatures with recovery bytes 1 and 0. -/
theorem C7_verify_ignores_recovery_byte_witness :
    Utils.VerifyMessage BW 1 "msg" (EncodeToString sig65) =
      Utils.VerifyMessage BW 1 "msg" (EncodeToString sig65b) :=
  C7_verify_ignores_recovery_byte BW 1 "msg" (EncodeToString sig65)
    (EncodeToString sig65b) sig65 sig65b
    (DecodeString_EncodeToString sig65 (by decide))
    (DecodeString_EncodeToString sig65b (by decide))
    (by decide) (by decide) (by decide)

/-- C3: for every key pair and message, verifying the signature produced
by SignMessage against the matching public key returns true.  The
hypothesis is the documented library contract: crypto.Sign emits a
65-byte signature whose leading 64 bytes validate, via
crypto.VerifySignature, against the serialized public key of the signing
key for the same digest.  The theorem carries the repository's share of
the claim: both sides hash the message identically, the hex encoding
round-trips, and the truncation keeps exactly the (r, s) part. -/
theorem C3_verify_sign_roundtrip (B : Backend) (k : Nat) (m : String) (e : Nat)
    (hlib : ∀ h key ent sig, B.ecSign h key ent = some sig →
      sig.length = 65 ∧ (∀ b ∈ sig, b < 256) ∧
      B.ecVerify (B.fromECDSAPub (B.pubOf key)) h (sig.take 64) = true)
    (sigHex : String) (hsign : Utils.SignMessage B k m e = some sigHex) :
    Utils.VerifyMessage B (B.pubOf k) m sigHex = VerifyResult.ok true := by
  unfold Utils.SignMessage at hsign
  cases hsig : B.ecSign (B.sha256 m) k e with
  | none => rw [hsig] at hsign; cases hsign
  | some sig =>
    rw [hsig] at hsign
    obtain ⟨hlen, hbnd, hver⟩ := hlib _ _ _ _ hsig
    have hx : sigHex = EncodeToString sig := (Option.some.inj hsign).symm
    subst hx
    have hdec : DecodeString (EncodeToString sig) = some sig :=
      DecodeString_EncodeToString sig hbnd
    unfold Utils.VerifyMessage
    rw [hdec]
    simp [hlen, hver]

/-- C3 witness: sign-then-verify on the concrete backend at key 1. -/
theorem C3_verify_sign_roundtrip_witness :
    Utils.VerifyMessage BW (BW.pubOf 1) "msg" (EncodeToString sig65) =
      VerifyResult.ok true :=
  C3_verify_sign_roundtrip BW 1 "msg" 0
    (fun h key ent sig hs => by
      have hs65 : sig = sig65 :=
        (Option.some.inj (show some sig65 = some sig from hs)).symm
      subst hs65
      exact ⟨by decide, by decide, by rfl⟩)
    (EncodeToString sig65) rfl

lemma loadKey_PrivateKeyToHex (d : Nat) (h0 : 0 < d) (hN : d < secp256k1N) :
    Services.loadKey (some (PrivateKeyToHex d)) = Except.ok d := by
  simp [Services.loadKey, decode_PrivateKeyToHex d, ToECDSA_FromECDSA d h0 hN]

/-- C6: a successful GenerateKeyPair followed immediately by a load of
the unchanged key file succeeds, and the loaded key's derived address
equals the address GenerateKeyPair returned. -/
theorem C6_generate_then_load (B : Backend) (d : Nat)
    (h0 : 0 < d) (hN : d < secp256k1N) :
    Services.GetAddress B (Services.GenerateKeyPair B d).2 =
      Except.ok (Services.GenerateKeyPair B d).1.2 := by
  show Services.GetAddress B (some (PrivateKeyToHex d)) =
    Except.ok (B.pubkeyToAddress (B.pubOf d))
  unfold Services.GetAddress
  rw [loadKey_PrivateKeyToHex d h0 hN]

/-- C6 witness: generate-then-load at the concrete scalar 1. -/
theorem C6_generate_then_load_witness :
    0 < 1 ∧ 1 < secp256k1N ∧
      Services.GetAddress BW (Services.GenerateKeyPair BW 1).2 =
        Except.ok (Services.GenerateKeyPair BW 1).1.2 :=
  ⟨by decide, by decide, C6_generate_then_load BW 1 (by decide) (by decide)⟩

/-- C2: the claim says a malformed recipient address makes transaction
construction fail with InvalidAddress before any network call.  The
code violates it: it never validates the recipient string (the TxError
type of the embedding has no InvalidAddress constructor because no such
exit exists in the source), common.HexToAddress silently coerces any
string, and the nonce, gas price and chain id lookups all run.  At the
malformed address 0x123: with the nonce lookup down the call fails with
the network error — proof that the lookup was reached — and with a
healthy client the call fully succeeds. -/
theorem C2_no_address_validation :
    Services.CreateAndSendTransaction BW keyFileSt clientNonceDown 0 "0x123" 5 =
      Except.error TxError.nonceErr
    ∧ Services.CreateAndSendTransaction BW keyFileSt clientOK 0 "0x123" 5 =
      Except.ok "txhash" :=
  ⟨rfl, rfl⟩

/-- C4: the claim says a negative value makes transaction construction
fail with InvalidAmount.  The code violates it: the value is never
validated (the TxError type of the embedding has no InvalidAmount
constructor because no such exit exists in the source), and with value
-1 and a healthy client the call fully succeeds. -/
theorem C4_no_amount_validation :
    Services.CreateAndSendTransaction BW keyFileSt clientOK 0
      "0x0000000000000000000000000000000000000001" (-1) =
      Except.ok "txhash" := rfl

/-- C10: for otherwise identical inputs, EIP-155 signing under chain id
1 and chain id 5 yields different signatures.  The hypothesis is the
documented library contract that crypto.Sign returns 65 bytes with a
recovery byte of 0 or 1; the V component is then recovery + 35 + 2 *
chainId, so V lies in 37..38 under chain id 1 and in 45..46 under chain
id 5, and the two signed transactions always differ.  The chain id is
also bound into the signed digest, txSigHash taking it as input. -/
theorem C10_chainid_distinguishes_signatures (B : Backend)
    (key entropy : Nat) (tx : Tx)
    (hlib : ∀ h k e sig, B.ecSign h k e = some sig →
      sig.length = 65 ∧ sig.getD 64 0 ≤ 1)
    (st1 st5 : SignedTx)
    (h1 : Services.SignTx B 1 tx key entropy = some st1)
    (h5 : Services.SignTx B 5 tx key entropy = some st5) :
    st1.sigV ≠ st5.sigV ∧ st1 ≠ st5 := by
  unfold Services.SignTx at h1 h5
  cases hs1 : B.ecSign (B.txSigHash 1 tx) key entropy with
  | none => rw [hs1] at h1; cases h1
  | some sig1 =>
    rw [hs1] at h1
    obtain ⟨hl1, hv1⟩ := hlib _ _ _ _ hs1
    cases hs5 : B.ecSign (B.txSigHash 5 tx) key entropy with
    | none => rw [hs5] at h5; cases h5
    | some sig5 =>
      rw [hs5] at h5
      obtain ⟨hl5, hv5⟩ := hlib _ _ _ _ hs5
      simp only [hl1, hl5] at h1 h5
      norm_num at h1 h5
      subst h1
      subst h5
      rw [List.getD_eq_getElem?_getD] at hv1 hv5
      have hne : sig1[64]?.getD 0 + 35 + 2 ≠ sig5[64]?.getD 0 + 35 + 10 := by
        omega
      exact ⟨hne, fun hEq => hne (congrArg SignedTx.sigV hEq)⟩

/-- C10 witness: concrete EIP-155 signing of the same transaction under
chain ids 1 and 5 on the concrete backend. -/
theorem C10_chainid_distinguishes_signatures_witness :
    ∃ st1 st5,
      Services.SignTx BW 1 tx0 1 0 = some st1 ∧
      Services.SignTx BW 5 tx0 1 0 = some st5 ∧
      st1.sigV ≠ st5.sigV ∧ st1 ≠ st5 := by
  refine ⟨_, _, rfl, rfl, ?_⟩
  exact C10_chainid_distinguishes_signatures BW 1 0 tx0
    (fun h k e sig hs => by
      have hs65 : sig = sig65 :=
        (Option.some.inj (show some sig65 = some sig from hs)).symm
      subst hs65
      exact ⟨by decide, by decide⟩)
    _ _ rfl rfl

end GoWallet
